import Mathlib

/-!
Shallow embedding of the audio engine in src/audio_engine.py.

The module holds one bounded queue AUDIO_QUEUE of capacity 1, a global
callback counter, the driver callback audio_callback, and the two lifecycle
functions start_stream and stop_stream.  Blocks of samples are treated as an
abstract type α; the outcomes of the external driver calls of the
sounddevice library (stream construction, start, stop, close) are passed in
as explicit Except values, so every theorem quantifies over all possible
driver behaviours.  All reasoning is sequential: one producer, no
interleaved consumer, as the claims state.
-/

namespace AudioEngine

/-- Errors raised by the Python queue operations: queue.Full and queue.Empty. -/
inductive QueueError where
  | full
  | empty
deriving DecidableEq, Repr

/-- Model of q.put(x, block=False) on a queue.Queue(maxsize=cap), the queue
being a list of blocks, oldest first.  Python raises Full when maxsize is
positive and the queue already holds at least maxsize items; otherwise the
block is appended at the tail. -/
def put_nowait {α : Type} (cap : Nat) (q : List α) (x : α) :
    Except QueueError (List α) :=
  if 0 < cap ∧ cap ≤ q.length then .error .full else .ok (q ++ [x])

/-- Model of q.get_nowait(): raises Empty on an empty queue, otherwise
removes and returns the oldest element. -/
def get_nowait {α : Type} (q : List α) : Except QueueError (α × List α) :=
  match q with
  | [] => .error .empty
  | x :: rest => .ok (x, rest)

/-- The module state touched by audio_callback: the global callback_count
and the contents of AUDIO_QUEUE. -/
structure EngineState (α : Type) where
  callback_count : Nat
  audio_queue : List α
deriving DecidableEq, Repr

/-- Model of audio_callback(indata, frames, time, status) at queue capacity
cap (the source fixes cap = 1).  It increments callback_count, emits the
diagnostic count when the driver status is truthy, then tries a non-blocking
put of a copy of the block; on queue.Full it discards the oldest entry with
get_nowait and retries the put.  Only queue.Full is caught, so any other
queue error escapes as .error. -/
def audio_callback {α : Type} (cap : Nat) (s : EngineState α) (indata : α)
    (status : Bool) : Except QueueError (EngineState α × Option Nat) :=
  let count := s.callback_count + 1
  let diag : Option Nat := if status then some count else none
  match put_nowait cap s.audio_queue indata with
  | .ok q => .ok (⟨count, q⟩, diag)
  | .error .full =>
      match get_nowait s.audio_queue with
      | .error e => .error e
      | .ok (_, q1) =>
          match put_nowait cap q1 indata with
          | .error e => .error e
          | .ok q2 => .ok (⟨count, q2⟩, diag)
  | .error e => .error e

/-- Sequential run of audio_callback over a list of produced blocks, every
invocation with nominal (falsy) driver status; the queue logic of the
callback does not depend on the status flag. -/
def run_callbacks {α : Type} (cap : Nat) (s : EngineState α) (xs : List α) :
    Except QueueError (EngineState α) :=
  match xs with
  | [] => .ok s
  | x :: rest =>
      match audio_callback cap s x false with
      | .error e => .error e
      | .ok (s1, _) => run_callbacks cap s1 rest

/-- The drain loop in stop_stream.  Under
sequential semantics each iteration removes the oldest element until the
queue is empty. -/
def drain {α : Type} (q : List α) : List α :=
  match q with
  | [] => []
  | _ :: rest => drain rest

/-- Observable steps of the teardown performed by stop_stream. -/
inductive TeardownEvent (ε : Type) where
  | stopCalled
  | closeCalled
  | errorLogged (e : ε)
  | drained
deriving DecidableEq, Repr

/-- Body of the try block in stop_stream: input_stream.stop() followed by
input_stream.close().  The outcomes of the two underlying driver calls are
passed in as Except values; the result records which calls were actually
made together with the outcome of the whole body.  When stop raises, close
is not invoked: control leaves the try block at the first raise. -/
def try_body {ε : Type} (stopRes closeRes : Except ε Unit) :
    List (TeardownEvent ε) × Except ε Unit :=
  match stopRes with
  | .error e => ([.stopCalled], .error e)
  | .ok _ =>
      match closeRes with
      | .error e => ([.stopCalled, .closeCalled], .error e)
      | .ok _ => ([.stopCalled, .closeCalled], .ok ())

/-- Model of stop_stream(input_stream): the try body runs stop then close;
except Exception catches any error from the body and logs it; the finally
clause drains AUDIO_QUEUE.  The result is the event trace and the final
queue; the outer Except is .error only if stop_stream itself raises. -/
def stop_stream {α ε : Type} (stopRes closeRes : Except ε Unit) (q : List α) :
    Except ε (List (TeardownEvent ε) × List α) :=
  let r := try_body stopRes closeRes
  let evs :=
    match r.2 with
    | .ok _ => r.1
    | .error e => r.1 ++ [.errorLogged e]
  .ok (evs ++ [.drained], drain q)

/-- The event trace produced by stop_stream, written out for reuse in
proofs: the calls made by the try body, then the log entry when the body
raised, then the drain. -/
def stop_events {ε : Type} (stopRes closeRes : Except ε Unit) :
    List (TeardownEvent ε) :=
  let r := try_body stopRes closeRes
  (match r.2 with
    | .ok _ => r.1
    | .error e => r.1 ++ [.errorLogged e]) ++ [.drained]

/-- Configuration passed to the sounddevice.InputStream constructor. -/
structure StreamConfig where
  device : Nat
  channels : Nat
  samplerate : Nat
  blocksize : Nat
  dtype : String
deriving DecidableEq, Repr

/-- The hard-coded arguments of the InputStream call in start_stream:
device=15, channels=1, samplerate=44100, blocksize=2048, dtype float32. -/
def engine_config : StreamConfig := ⟨15, 1, 44100, 2048, "float32"⟩

/-- Observable steps of start_stream; the fixed stabilization delay
time.sleep(0.5) is recorded in milliseconds.  The info prints are pure
diagnostics and are not modelled. -/
inductive StartEvent where
  | created (cfg : StreamConfig)
  | started
  | slept (ms : Nat)
deriving DecidableEq, Repr

/-- Model of start_stream(): construct the InputStream with the hard-coded
engine_config, call start() on it, sleep 0.5 seconds, return the stream.
The constructor and start outcomes are passed in as Except values over an
abstract handle type η; an error from either propagates (there is no
try/except in start_stream), skipping every later step. -/
def start_stream {ε η : Type} (createRes : StreamConfig → Except ε η)
    (startRes : η → Except ε Unit) : List StartEvent × Except ε η :=
  match createRes engine_config with
  | .error e => ([], .error e)
  | .ok h =>
      match startRes h with
      | .error e => ([.created engine_config], .error e)
      | .ok _ => ([.created engine_config, .started, .slept 500], .ok h)

/-- Configurations carried by the created events of a start trace. -/
def created_configs (evs : List StartEvent) : List StreamConfig :=
  evs.filterMap (fun ev =>
    match ev with
    | .created cfg => some cfg
    | _ => none)

/-- Draining always empties the queue. -/
theorem drain_eq_nil {α : Type} (q : List α) : drain q = [] := by
  induction q with
  | nil => rfl
  | cons x rest ih => simpa [drain] using ih

/-- A push into an empty capacity-1 queue succeeds directly. -/
theorem audio_callback_empty {α : Type} (c : Nat) (x : α) (st : Bool) :
    audio_callback 1 ⟨c, []⟩ x st =
      .ok (⟨c + 1, [x]⟩, if st then some (c + 1) else none) := by
  simp [audio_callback, put_nowait]

/-- A push into a full capacity-1 queue evicts the oldest entry and retries. -/
theorem audio_callback_single {α : Type} (c : Nat) (a x : α) (st : Bool) :
    audio_callback 1 ⟨c, [a]⟩ x st =
      .ok (⟨c + 1, [x]⟩, if st then some (c + 1) else none) := by
  simp [audio_callback, put_nowait, get_nowait]

/-- Running the callback over any block list from a valid capacity-1 state
keeps only the last pushed block (or the prior content when none arrive). -/
theorem run_callbacks_cap_one {α : Type} (xs : List α) :
    ∀ (c : Nat) (q : List α), q.length ≤ 1 →
      run_callbacks 1 ⟨c, q⟩ xs =
        .ok ⟨c + xs.length, (q ++ xs).drop ((q ++ xs).length - 1)⟩ := by
  induction xs with
  | nil =>
      intro c q hq
      rcases q with _ | ⟨a, q⟩
      · simp [run_callbacks]
      · rcases q with _ | ⟨b, q⟩
        · simp [run_callbacks]
        · simp at hq
  | cons x rest ih =>
      intro c q hq
      rcases q with _ | ⟨a, q⟩
      · rw [run_callbacks, audio_callback_empty]
        show run_callbacks 1 ⟨c + 1, [x]⟩ rest = _
        rw [ih (c + 1) [x] (by simp)]
        simp
        omega
      · rcases q with _ | ⟨b, q⟩
        · rw [run_callbacks, audio_callback_single]
          show run_callbacks 1 ⟨c + 1, [x]⟩ rest = _
          rw [ih (c + 1) [x] (by simp)]
          simp
          omega
        · simp at hq

/-- stop_stream always returns normally: its value is the trace together
with the drained (empty) queue. -/
theorem stop_stream_eq {α ε : Type} (stopRes closeRes : Except ε Unit)
    (q : List α) :
    stop_stream stopRes closeRes q = .ok (stop_events stopRes closeRes, []) := by
  simp [stop_stream, stop_events, drain_eq_nil]

/-- The teardown trace always ends with the drain step. -/
theorem stop_events_getLast {ε : Type} (stopRes closeRes : Except ε Unit) :
    (stop_events stopRes closeRes).getLast? = some .drained := by
  rw [stop_events, List.getLast?_append_cons]
  rfl

/-- C1: for every sequence of N pushes into the capacity-1 buffer with
N greater than the capacity, starting from the initial empty state, the run
succeeds and the buffer afterwards contains exactly the most recent
capacity (= 1) blocks in push order, oldest-first. -/
theorem pushes_keep_most_recent {α : Type} (xs : List α) (hN : 1 < xs.length) :
    run_callbacks 1 ⟨0, []⟩ xs = .ok ⟨xs.length, xs.drop (xs.length - 1)⟩ := by
  simpa using run_callbacks_cap_one xs 0 [] (by simp)

/-- C1 witness: push(10) then push(20) from empty leaves the buffer holding
exactly the block 20, the block 10 having been evicted. -/
theorem pushes_keep_most_recent_witness :
    1 < ([10, 20] : List Nat).length ∧
      run_callbacks 1 ⟨0, ([] : List Nat)⟩ [10, 20] = .ok ⟨2, [20]⟩ :=
  ⟨by decide, by simpa using pushes_keep_most_recent [10, 20] (by decide)⟩

/-- C2: from every valid buffer state (length at most the capacity 1), the
push performed by audio_callback returns normally, never raising: when
capacity is available it appends the block, and when the buffer is full it
evicts exactly the one oldest entry and then inserts the new block. -/
theorem push_full_evicts {α : Type} (c : Nat) (q : List α) (x : α) (st : Bool)
    (hq : q.length ≤ 1) :
    audio_callback 1 ⟨c, q⟩ x st =
      .ok (⟨c + 1, if q.length < 1 then q ++ [x] else q.drop 1 ++ [x]⟩,
        if st then some (c + 1) else none) := by
  rcases q with _ | ⟨a, q⟩
  · simpa using audio_callback_empty c x st
  · rcases q with _ | ⟨b, q⟩
    · simpa using audio_callback_single c a x st
    · simp at hq

/-- C2 witness: pushing 9 into the full buffer holding 7 succeeds without
an error, evicting 7 and inserting 9. -/
theorem push_full_evicts_witness :
    audio_callback 1 ⟨0, [7]⟩ 9 false = .ok (⟨1, [9]⟩, none) := by
  simpa using push_full_evicts 0 [7] 9 false (by decide)

/-- C3: every operation on the buffer preserves the invariant that its
length stays at most the capacity 1 (lengths are natural numbers, hence
never below 0): the push done by audio_callback, the consumer-side pop
get_nowait, and the drain loop of stop_stream. -/
theorem buffer_length_invariant {α : Type} :
    (∀ (c : Nat) (q : List α) (x : α) (st : Bool) (s : EngineState α)
        (d : Option Nat), q.length ≤ 1 →
        audio_callback 1 ⟨c, q⟩ x st = .ok (s, d) → s.audio_queue.length ≤ 1)
  ∧ (∀ (q q1 : List α) (b : α), q.length ≤ 1 →
        get_nowait q = .ok (b, q1) → q1.length ≤ 1)
  ∧ (∀ q : List α, (drain q).length ≤ 1) := by
  refine ⟨?_, ?_, ?_⟩
  · intro c q x st s d hq h
    rw [push_full_evicts c q x st hq] at h
    obtain ⟨h1, h2⟩ := Prod.mk.injEq .. ▸ Except.ok.inj h
    subst h1
    rcases q with _ | ⟨a, q⟩
    · simp
    · simp at hq ⊢
      simp [hq]
  · intro q q1 b hq h
    rcases q with _ | ⟨a, q⟩
    · simp [get_nowait] at h
    · obtain ⟨h1, h2⟩ := Prod.mk.injEq .. ▸ Except.ok.inj h
      subst h2
      simp at hq
      simp [hq]
  · intro q
    simp [drain_eq_nil]

/-- C3 witness: instantiating the push clause at the full buffer holding 7
with incoming block 9 gives the resulting state of length at most 1. -/
theorem buffer_length_invariant_witness :
    (⟨1, [9]⟩ : EngineState Nat).audio_queue.length ≤ 1 :=
  (buffer_length_invariant (α := Nat)).1 0 [7] 9 false ⟨1, [9]⟩ none
    (by decide) (by rfl)

/-- C4: for every handle behaviour (any outcomes of the underlying stop and
close calls) and every buffer content, stop_stream returns normally rather
than raising, and its trace ends with the drain of the buffer, which leaves
the buffer empty: the drain executes regardless of stop and close outcomes. -/
theorem stop_stream_never_raises {α ε : Type} (stopRes closeRes : Except ε Unit)
    (q : List α) :
    ∃ evs : List (TeardownEvent ε),
      stop_stream stopRes closeRes q = .ok (evs, []) ∧
        evs.getLast? = some .drained :=
  ⟨stop_events stopRes closeRes, stop_stream_eq stopRes closeRes q,
    stop_events_getLast stopRes closeRes⟩

/-- C5: whatever value stop_stream returns, its resulting buffer is empty:
a subsequent try_pop (get_nowait) reports Empty. -/
theorem queue_empty_after_stop {α ε : Type} (stopRes closeRes : Except ε Unit)
    (q q1 : List α) (evs : List (TeardownEvent ε))
    (h : stop_stream stopRes closeRes q = .ok (evs, q1)) :
    get_nowait q1 = .error .empty := by
  rw [stop_stream_eq] at h
  obtain ⟨h1, h2⟩ := Prod.mk.injEq .. ▸ Except.ok.inj h
  rw [← h2]
  rfl

/-- C5 witness: five blocks pushed with no consumer reads leave the buffer
holding the block 5; after a successful stop and close, the drained buffer
answers Empty to a pop. -/
theorem queue_empty_after_stop_witness :
    run_callbacks 1 ⟨0, ([] : List Nat)⟩ [1, 2, 3, 4, 5] = .ok ⟨5, [5]⟩ ∧
      get_nowait ([] : List Nat) = .error .empty :=
  ⟨by rfl,
    queue_empty_after_stop (ε := Unit) (.ok ()) (.ok ()) [5] []
      [.stopCalled, .closeCalled, .drained] (by rfl)⟩

/-- C6: start_stream performs create, then start, then the fixed 500 ms
stabilization wait, then returns the live handle, in that order; a failure
of create or start surfaces as an error to the caller, no handle is
returned, and the later steps (including the wait) do not happen. -/
theorem start_stream_order {ε η : Type} (createRes : StreamConfig → Except ε η)
    (startRes : η → Except ε Unit) :
    (∀ h : η, createRes engine_config = .ok h → startRes h = .ok () →
        start_stream createRes startRes =
          ([.created engine_config, .started, .slept 500], .ok h))
  ∧ (∀ e : ε, createRes engine_config = .error e →
        start_stream createRes startRes = ([], .error e))
  ∧ (∀ (h : η) (e : ε), createRes engine_config = .ok h →
        startRes h = .error e →
        start_stream createRes startRes = ([.created engine_config], .error e)) := by
  refine ⟨?_, ?_, ?_⟩ <;> intros <;> simp_all [start_stream]

/-- C6 witness: with a driver whose create yields handle 7 and whose start
succeeds, start_stream produces the full ordered trace and returns 7. -/
theorem start_stream_order_witness :
    start_stream (ε := String) (fun _ => .ok 7) (fun _ => .ok ()) =
      ([.created engine_config, .started, .slept 500], .ok 7) :=
  (start_stream_order (fun _ => .ok 7) (fun _ => .ok ())).1 7 rfl rfl

/-- C7 counterexample: with a stop step that raises and a close step that
would succeed, stop_stream logs the error and drains, but the trace shows
the close call was never made: the error from stop does prevent reaching
close, because the except clause is entered before close runs. -/
theorem stop_error_skips_close :
    stop_stream (α := Nat) (ε := Nat) (.error 0) (.ok ()) [] =
        .ok ([.stopCalled, .errorLogged 0, .drained], []) ∧
      TeardownEvent.closeCalled ∉
        ([.stopCalled, .errorLogged 0, .drained] : List (TeardownEvent Nat)) :=
  ⟨rfl, by decide⟩

/-- C7 amended: an error raised by the stop step during teardown is caught
and logged and does not prevent the drain of the buffer, but it does
prevent the close step: close is skipped whenever stop raises, so the
stream resource is not released by stop_stream in that case. -/
theorem stop_error_logged_not_closed {α ε : Type} (e : ε)
    (closeRes : Except ε Unit) (q : List α) :
    stop_stream (.error e) closeRes q =
        .ok ([.stopCalled, .errorLogged e, .drained], []) ∧
      TeardownEvent.closeCalled ∉
        ([.stopCalled, .errorLogged e, .drained] : List (TeardownEvent ε)) := by
  constructor
  · simp [stop_stream, try_body, drain_eq_nil]
  · simp

/-- C9 counterexample: start_stream accepts no configuration from its
caller; the one created event of a successful run carries the hard-coded
engine_config with device 15, which differs from a configuration a caller
could want, such as device 14 with 2 channels at 48000 Hz. -/
theorem config_not_caller_supplied :
    created_configs
        (start_stream (ε := Nat) (η := Nat) (fun _ => .ok 0)
          (fun _ => .ok ())).1 = [engine_config] ∧
      engine_config ≠ ⟨14, 2, 48000, 1024, "float32"⟩ :=
  ⟨rfl, by decide⟩

/-- C9 amended: the device configuration is fixed in the code rather than
caller-supplied: every created event of any start_stream run carries
exactly device 15, 1 channel, 44100 Hz, block size 2048, format float32. -/
theorem created_config_is_fixed {ε η : Type}
    (createRes : StreamConfig → Except ε η) (startRes : η → Except ε Unit)
    (cfg : StreamConfig)
    (hmem : cfg ∈ created_configs (start_stream createRes startRes).1) :
    cfg = ⟨15, 1, 44100, 2048, "float32"⟩ := by
  cases hc : createRes engine_config with
  | error e =>
      simp [start_stream, hc, created_configs] at hmem
  | ok h =>
      cases hs : startRes h with
      | error e =>
          simp [start_stream, hc, hs, created_configs] at hmem
          rw [hmem]
          rfl
      | ok u =>
          simp [start_stream, hc, hs, created_configs] at hmem
          rw [hmem]
          rfl

/-- C9 amended witness: the hard-coded configuration recovered from a
concrete successful run is exactly the constant of line 26. -/
theorem created_config_is_fixed_witness :
    engine_config = ⟨15, 1, 44100, 2048, "float32"⟩ :=
  created_config_is_fixed (ε := Nat) (η := Nat) (fun _ => .ok 0)
    (fun _ => .ok ()) engine_config (by simp [start_stream, created_configs])

/-- C10: under sequential semantics, from every valid capacity-1 state, the
eviction branch of audio_callback is safe: whenever the non-blocking put
reports Full the queue is non-empty, the subsequent get_nowait succeeds,
the retried put succeeds, and audio_callback as a whole returns normally
rather than propagating a queue error. -/
theorem eviction_branch_safe {α : Type} (c : Nat) (q : List α) (x : α)
    (st : Bool) (hq : q.length ≤ 1) :
    (put_nowait 1 q x = .error .full → q ≠ [])
  ∧ (put_nowait 1 q x = .error .full →
      ∃ (b : α) (q1 q2 : List α),
        get_nowait q = .ok (b, q1) ∧ put_nowait 1 q1 x = .ok q2)
  ∧ ∃ out, audio_callback 1 ⟨c, q⟩ x st = .ok out := by
  rcases q with _ | ⟨a, q⟩
  · refine ⟨?_, ?_, ?_⟩
    · intro h
      simp [put_nowait] at h
    · intro h
      simp [put_nowait] at h
    · exact ⟨_, audio_callback_empty c x st⟩
  · rcases q with _ | ⟨b, q⟩
    · refine ⟨?_, ?_, ?_⟩
      · intro h
        simp
      · intro h
        exact ⟨a, [], [x], rfl, by simp [put_nowait]⟩
      · exact ⟨_, audio_callback_single c a x st⟩
    · simp at hq

/-- C10 witness: at the concrete full state holding block 7, the put of
block 9 reports Full, the queue is indeed non-empty, and the callback
returns normally with the buffer holding 9. -/
theorem eviction_branch_safe_witness :
    put_nowait 1 [7] 9 = .error QueueError.full ∧ ([7] : List Nat) ≠ [] ∧
      audio_callback 1 ⟨0, [7]⟩ 9 true = .ok (⟨1, [9]⟩, some 1) := by
  have h := eviction_branch_safe (α := Nat) 0 [7] 9 true (by decide)
  exact ⟨rfl, h.1 rfl, rfl⟩

end AudioEngine
